import Mathlib

/-!
Shallow embedding of the toxicslave build engine
(`toxicslave/build.py`, `toxicslave/plugins.py`).

The build engine executes an ordered list of shell steps.  Shell
execution itself (toxiccore's `exec_cmd`) is external to the
repository; a step's interaction with the shell is therefore modelled
by an explicit `ExecResult` input describing how the command ended, and
the lines streamed to the `out_fn` callback are an explicit
`List String` input.
-/

/-- Python `s.strip(c)`: remove every leading and trailing occurrence of
the character `c`.  Used by `BuildStep.__init__` (`command.strip(' ')`)
and by `Builder._flush_step_output_buff` (`.strip('\n')`). -/
def pyStrip (c : Char) (s : String) : String :=
  String.mk ((((s.data.dropWhile (· = c)).reverse).dropWhile (· = c)).reverse)

/-- Step/build statuses used by `toxicslave.build`. -/
inductive Status where
  | success
  | warning
  | fail
  | exception
  | cancelled
  deriving DecidableEq, Repr

/-- How the underlying shell command ended: normal completion with exit
code 0 and the accumulated output, `ExecCmdError` (non-zero exit)
carrying the accumulated output, `asyncio.TimeoutError`, or
`asyncio.CancelledError`. -/
inductive ExecResult where
  | ok (output : String)
  | execError (output : String)
  | timedOut
  | cancelled
  deriving DecidableEq, Repr

/-- The `{status, output}` dictionary returned by `BuildStep.execute`. -/
structure StepOutcome where
  status : Status
  output : String
  deriving DecidableEq, Repr

/-- `toxicslave.build.BuildStep`: name, command, and the flags set by
`__init__`. -/
structure BuildStep where
  name : String
  command : String
  warning_on_fail : Bool
  timeout : Nat
  stop_on_fail : Bool
  deriving DecidableEq, Repr

/-- `BuildStep.__init__`: stores the attributes, stripping leading and
trailing spaces from the command (`command.strip(' ')`). -/
def BuildStep.init (name command : String) (warning_on_fail : Bool := false)
    (timeout : Nat := 3600) (stop_on_fail : Bool := false) : BuildStep :=
  { name := name
    command := pyStrip ' ' command
    warning_on_fail := warning_on_fail
    timeout := timeout
    stop_on_fail := stop_on_fail }

/-- `BuildStep.execute`: classify the result of running the command.
Completion gives `success` with the output; `ExecCmdError` gives `fail`
with the accumulated output; a timeout gives `exception` with the
synthetic message; cancellation gives `cancelled` with output
`"Build cancelled"`.  Then, if `warning_on_fail` and the status is
`fail` or `exception`, the status is promoted to `warning`. -/
def BuildStep.execute (step : BuildStep) (res : ExecResult) : StepOutcome :=
  let classified : Status × String :=
    match res with
    | .ok out => (Status.success, out)
    | .execError out => (Status.fail, out)
    | .timedOut =>
        (Status.exception,
         step.command ++ " has timed out in " ++ toString step.timeout ++ " seconds")
    | .cancelled => (Status.cancelled, "Build cancelled")
  let status :=
    if step.warning_on_fail = true ∧
        (classified.1 = Status.fail ∨ classified.1 = Status.exception) then
      Status.warning
    else classified.1
  { status := status, output := classified.2 }

/-! ### Step output buffering

`Builder` keeps `_step_output_buff` (a list of lines),
`_current_step_output_buff_len` (the summed length of the buffered
lines) and `_current_step_output_index` (`None` before the first flush
of a step).  `_clear_step_output_buff` resets all three at the start of
each step of `_do_build`. -/

/-- The per-builder streaming state: `_step_output_buff`,
`_current_step_output_buff_len`, `_current_step_output_index`. -/
structure OutBuf where
  buff : List String
  bufLen : Nat
  idx : Option Nat
  deriving DecidableEq, Repr

/-- The state set by `Builder._clear_step_output_buff`. -/
def clearStepOutputBuff : OutBuf := { buff := [], bufLen := 0, idx := none }

/-- `Builder._flush_step_output_buff`: pick the next output index
(0 when `None`, else previous + 1), emit a `step_output_info` message
whose output is `''.join(buff).strip('\n')`, and reset the buffer.  The
emitted message is modelled as its `(output_index, output)` pair. -/
def flushStepOutputBuff (b : OutBuf) : OutBuf × (Nat × String) :=
  let i := match b.idx with
    | none => 0
    | some k => k + 1
  (⟨[], 0, some i⟩, (i, pyStrip '\n' (String.join b.buff)))

/-- `Builder._send_step_output_info`: append the line to the buffer, add
its length, and flush iff the accumulated length exceeds
`STEP_OUTPUT_BUFF_LEN` (the `thresh` parameter; 0 in `Builder`). -/
def sendStepOutputInfo (thresh : Nat) (b : OutBuf) (line : String) :
    OutBuf × List (Nat × String) :=
  let b1 : OutBuf := ⟨b.buff ++ [line], b.bufLen + line.length, b.idx⟩
  if b1.bufLen > thresh then
    let r := flushStepOutputBuff b1
    (r.1, [r.2])
  else (b1, [])

/-- Feed the lines produced by a command, in order, through
`Builder._send_step_output_info`; collect the emitted
`step_output_info` messages. -/
def runLines (thresh : Nat) (b : OutBuf) : List String → OutBuf × List (Nat × String)
  | [] => (b, [])
  | l :: ls =>
    let r1 := sendStepOutputInfo thresh b l
    let r2 := runLines thresh r1.1 ls
    (r2.1, r1.2 ++ r2.2)

/-- All `step_output_info` messages emitted for one step: the buffer is
cleared at the start of the step (`_clear_step_output_buff`), each line
goes through `_send_step_output_info`, and after the step completes
`_flush_step_output_buff` runs once unconditionally. -/
def stepOutputs (thresh : Nat) (lines : List String) : List (Nat × String) :=
  let r := runLines thresh clearStepOutputBuff lines
  r.2 ++ [(flushStepOutputBuff r.1).2]

/-! ### The build loop (`Builder._do_build`) -/

/-- One step of the build together with its environment interaction:
how its command ends and which output lines it streams. -/
structure StepSpec where
  step : BuildStep
  res : ExecResult
  lines : List String
  deriving DecidableEq, Repr

/-- The per-step record accumulated by the loop: the step, its terminal
status, and the `step_output_info` messages emitted for it. -/
structure ExecutedStep where
  step : BuildStep
  status : Status
  outputs : List (Nat × String)
  deriving DecidableEq, Repr

/-- The `build_status` aggregation of `Builder._do_build`: the step's
status is recorded when `build_status` is still `None` or `success`;
otherwise the build is already failed and the status is kept. -/
def updateBuildStatus (bs : Option Status) (st : Status) : Option Status :=
  if bs = none ∨ bs = some Status.success then some st else bs

/-- `Builder._do_build`'s loop over the steps, carrying `build_status`
(initially `None`).  For each step: clear the output buffer, execute,
flush; aggregate the status; break when the status is `cancelled`, or
when it is `fail`/`exception` and the step has `stop_on_fail`. -/
def doBuildLoop (thresh : Nat) : Option Status → List StepSpec →
    List ExecutedStep × Option Status
  | bs, [] => ([], bs)
  | bs, s :: rest =>
    let st := (BuildStep.execute s.step s.res).status
    let bs2 := updateBuildStatus bs st
    let ex : ExecutedStep := ⟨s.step, st, stepOutputs thresh s.lines⟩
    if st = Status.cancelled then ([ex], bs2)
    else if (st = Status.fail ∨ st = Status.exception) ∧ s.step.stop_on_fail = true then
      ([ex], bs2)
    else
      let r := doBuildLoop thresh bs2 rest
      (ex :: r.1, r.2)

/-- `Builder._do_build`: run the loop with `build_status = None`;
the final `build_info['status']` is the carried `build_status`. -/
def doBuild (thresh : Nat) (specs : List StepSpec) :
    List ExecutedStep × Option Status :=
  doBuildLoop thresh none specs

/-! ### Plugins (`toxicslave/plugins.py`) -/

/-- Python `os.path.join(a, b)`: `b` when it is absolute or `a` is
empty; no extra separator when `a` already ends in `/`. -/
def joinPath (a b : String) : String :=
  if b.data.head? = some '/' then b
  else if a = "" then b
  else if a.data.getLast? = some '/' then a ++ b
  else a ++ "/" ++ b

/-- `plugins.PythonCreateVenvStep` construction data: `data_dir`,
`venv_dir`, `pyversion`. -/
structure PythonCreateVenvStep where
  data_dir : String
  venv_dir : String
  pyversion : String
  deriving DecidableEq, Repr

/-- `PythonCreateVenvStep.__init__`: the underlying `BuildStep`, named
`Create virtualenv`, with command
`mkdir -p <data_dir> && <pyversion> -m venv <venv_dir>` and
`stop_on_fail=True`. -/
def PythonCreateVenvStep.toStep (s : PythonCreateVenvStep) : BuildStep :=
  BuildStep.init "Create virtualenv"
    ("mkdir -p " ++ s.data_dir ++ " && " ++ s.pyversion ++ " -m venv " ++ s.venv_dir)
    false 3600 true

/-- `PythonCreateVenvStep.execute`: when
`os.path.join(cwd, os.path.join(venv_dir, os.path.join('bin', 'python')))`
exists (the filesystem is modelled by the predicate `fs`), report
success with output `venv exists. Skipping...` without running the
command; otherwise defer to `BuildStep.execute`.  The boolean in the
result records whether the underlying command was run. -/
def PythonCreateVenvStep.execute (s : PythonCreateVenvStep) (cwd : String)
    (fs : String → Bool) (res : ExecResult) : StepOutcome × Bool :=
  let pyexec := joinPath s.venv_dir (joinPath "bin" "python")
  if fs (joinPath cwd pyexec) then
    ({ status := Status.success, output := "venv exists. Skipping..." }, false)
  else
    (BuildStep.execute s.toStep res, true)

/-- `plugins.AptInstallStep`: the package list, the two candidate
commands built by `__init__`, the `_cmd` cache (`None` initially), and
the underlying `BuildStep`. -/
structure AptInstallStep where
  packages : List String
  install_cmd : String
  reconf_cmd : String
  cmd : Option String
  step : BuildStep
  deriving DecidableEq, Repr

/-- `AptInstallStep.__init__`: `install_cmd` is
`sudo apt-get install -y <pkgs>`, `reconf_cmd` is
`sudo dpkg-reconfigure <pkgs>` (packages joined by a space), `_cmd` is
`None`, and the underlying step is named
`Installing packages with apt-get` with the install command and
`stop_on_fail=True`. -/
def AptInstallStep.init (packages : List String) (timeout : Nat := 600) :
    AptInstallStep :=
  let packages_str := String.intercalate " " packages
  let install_cmd := "sudo apt-get install -y " ++ packages_str
  let reconf_cmd := "sudo dpkg-reconfigure " ++ packages_str
  { packages := packages
    install_cmd := install_cmd
    reconf_cmd := reconf_cmd
    cmd := none
    step := BuildStep.init "Installing packages with apt-get" install_cmd
      false timeout true }

/-- The probing branch of `AptInstallStep.get_command`:
`_is_everything_installed` runs the pipeline
`sudo dpkg -l | egrep '<p1>|<p2>|...' | wc -l` and compares its integer
output (the `count` parameter here) with `len(packages)`; on equality
the reconfigure command is chosen, otherwise the install command.  The
choice is stored in `_cmd` and in `command`. -/
def AptInstallStep.resolveCommand (s : AptInstallStep) (count : Nat) :
    String × AptInstallStep × Bool :=
  let chosen := if count = s.packages.length then s.reconf_cmd else s.install_cmd
  (chosen,
   { s with cmd := some chosen, step := { s.step with command := chosen } },
   true)

/-- `AptInstallStep.get_command`: when `_cmd` is already set (Python
truthiness: not `None` and not the empty string) return it without
probing; otherwise probe and cache.  The boolean in the result records
whether the dpkg probe ran. -/
def AptInstallStep.getCommand (s : AptInstallStep) (count : Nat) :
    String × AptInstallStep × Bool :=
  match s.cmd with
  | some c => if c = "" then s.resolveCommand count else (c, s, false)
  | none => s.resolveCommand count

/-! ### Plugin loading (`Builder._load_plugins`) -/

/-- A plugin configuration dictionary, as a key-value list. -/
abbrev PDict := List (String × String)

/-- Python `d[k]` as a total lookup. -/
def lookupKey (d : PDict) (k : String) : Option String :=
  (d.find? (fun p => p.1 == k)).map (·.2)

/-- Python `del d[k]`: remove the key. -/
def delKey (d : PDict) (k : String) : PDict :=
  d.filter (fun p => p.1 != k)

/-- `Builder._load_plugins`: for each plugin dictionary in order, look
up its `name` key — a missing key raises `BadPluginConfig`, modelled as
`none` — then delete the `name` key from the dictionary (an in-place
mutation of the caller's configuration) and instantiate the plugin.
The result models the plugin names and the mutated dictionaries the
configuration object holds afterwards. -/
def loadPlugins : List PDict → Option (List String × List PDict)
  | [] => some ([], [])
  | d :: rest =>
    match lookupKey d "name" with
    | none => none
    | some n =>
      match loadPlugins rest with
      | none => none
      | some r => some (n :: r.1, delKey d "name" :: r.2)

/-! ### Spec-side definitions

These follow the wording of the specification, to be compared with the
code-side definitions above. -/

/-- Severity of a status in the spec's ordering
`success < warning < fail < exception`. -/
def sev : Status → Nat
  | Status.success => 0
  | Status.warning => 1
  | Status.fail => 2
  | Status.exception => 3
  | Status.cancelled => 4

/-- The spec's aggregation rule, as claimed: the worst status among the
terminal statuses of the executed steps under
`success < warning < fail < exception`, with `cancelled`
short-circuiting the build to `cancelled`. -/
def worstStatus (l : List Status) : Option Status :=
  if l = [] then none
  else if Status.cancelled ∈ l then some Status.cancelled
  else some (l.foldl (fun a b => if sev a < sev b then b else a) Status.success)

/-- The aggregation the code actually performs: the first non-`success`
status of the executed steps, `success` when all succeed, `none` for an
empty build. -/
def firstNonSuccess : List Status → Option Status
  | [] => none
  | st :: rest =>
    match firstNonSuccess rest with
    | none => some st
    | some y => some (if st = Status.success then y else st)

/-- The spec's wording for a `step_output_info` output: the buffered
lines joined by newline. -/
def joinNL : List String → String
  | [] => ""
  | [l] => l
  | l :: ls => l ++ "\n" ++ joinNL ls

/-- `flushStepOutputBuff` with the flushed output computed per the
spec's words: buffer joined by newline, leading and trailing `\n`
stripped. -/
def flushStepOutputBuffNL (b : OutBuf) : OutBuf × (Nat × String) :=
  let i := match b.idx with
    | none => 0
    | some k => k + 1
  (⟨[], 0, some i⟩, (i, pyStrip '\n' (joinNL b.buff)))

/-- `sendStepOutputInfo` with the spec-side flush. -/
def sendStepOutputInfoNL (thresh : Nat) (b : OutBuf) (line : String) :
    OutBuf × List (Nat × String) :=
  let b1 : OutBuf := ⟨b.buff ++ [line], b.bufLen + line.length, b.idx⟩
  if b1.bufLen > thresh then
    let r := flushStepOutputBuffNL b1
    (r.1, [r.2])
  else (b1, [])

/-- `runLines` with the spec-side flush. -/
def runLinesNL (thresh : Nat) (b : OutBuf) : List String → OutBuf × List (Nat × String)
  | [] => (b, [])
  | l :: ls =>
    let r1 := sendStepOutputInfoNL thresh b l
    let r2 := runLinesNL thresh r1.1 ls
    (r2.1, r1.2 ++ r2.2)

/-- `stepOutputs` with the spec-side flush. -/
def stepOutputsNL (thresh : Nat) (lines : List String) : List (Nat × String) :=
  let r := runLinesNL thresh clearStepOutputBuff lines
  r.2 ++ [(flushStepOutputBuffNL r.1).2]

/-- The next `output_index` a flush will use, given
`_current_step_output_index`. -/
def nextIdx : Option Nat → Nat
  | none => 0
  | some k => k + 1

/-! ## Helper lemmas -/

/-- Stripping a character from a string yields the empty string exactly
when every character of the string is that character. -/
theorem pyStrip_eq_empty_iff (c : Char) (s : String) :
    pyStrip c s = "" ↔ ∀ ch ∈ s.data, ch = c := by
  unfold pyStrip
  rw [String.ext_iff]
  show (((s.data.dropWhile (· = c)).reverse).dropWhile (· = c)).reverse = "".data ↔ _
  have hempty : ("" : String).data = [] := rfl
  rw [hempty, List.reverse_eq_nil_iff, List.dropWhile_eq_nil_iff]
  constructor
  · intro h x hx
    have hsplit := List.takeWhile_append_dropWhile (fun y => decide (y = c)) s.data
    rw [← hsplit] at hx
    rcases List.mem_append.mp hx with h1 | h2
    · have := List.mem_takeWhile_imp h1
      simpa using this
    · have := h x (List.mem_reverse.mpr h2)
      simpa using this
  · intro h x hx
    have hx' := List.mem_reverse.mp hx
    have : x ∈ s.data := List.dropWhile_sublist (fun y => decide (y = c)) |>.mem hx'
    simpa using h x this

/-- Appending to a non-empty string never yields the empty string. -/
theorem string_append_ne_empty (a x : String) (h : a.data ≠ []) : a ++ x ≠ "" := by
  intro he
  have hd := congrArg String.data he
  rw [String.data_append] at hd
  simp at hd
  exact h hd.1

/-- After `del d['name']`, looking up `name` finds nothing. -/
theorem lookupKey_delKey_name (d : PDict) : lookupKey (delKey d "name") "name" = none := by
  unfold lookupKey delKey
  rw [List.find?_filter]
  simp

/-! ## Claims -/

/-- C2: `BuildStep.execute` classifies completion as `success` with the
command output, `ExecCmdError` as `fail` with the accumulated output, a
timeout as `exception` with the synthetic message
`<command> has timed out in <timeout> seconds`, and cancellation as
`cancelled` with output `Build cancelled`; with `warning_on_fail`, a
`fail` or `exception` is promoted to `warning` while `cancelled` never
is. -/
theorem buildstep_execute_classifies (step : BuildStep) (out : String) :
    step.execute (ExecResult.ok out) = ⟨Status.success, out⟩
    ∧ step.execute (ExecResult.execError out) =
        ⟨if step.warning_on_fail then Status.warning else Status.fail, out⟩
    ∧ step.execute ExecResult.timedOut =
        ⟨if step.warning_on_fail then Status.warning else Status.exception,
         step.command ++ " has timed out in " ++ toString step.timeout ++ " seconds"⟩
    ∧ step.execute ExecResult.cancelled = ⟨Status.cancelled, "Build cancelled"⟩ := by
  cases h : step.warning_on_fail <;>
    simp [BuildStep.execute, h]

/-- C6 counterexample: the `BuildStep` constructor accepts a command
made only of spaces, and the stored command is then empty, so the
claimed invariant `command ≠ ""` does not hold for every accepted
input. -/
theorem buildstep_init_allows_empty_command :
    (BuildStep.init "step" "   ").command = "" := rfl

/-- C6 amended: the constructor strips leading and trailing spaces from
the given command; the stored command is empty exactly when the given
command consists only of spaces, so non-emptiness is not established
for every accepted input. -/
theorem buildstep_init_strips_spaces (n c : String) (w : Bool) (t : Nat) (f : Bool) :
    (BuildStep.init n c w t f).command = pyStrip ' ' c
    ∧ ((BuildStep.init n c w t f).command = "" ↔ ∀ ch ∈ c.data, ch = ' ') := by
  refine ⟨rfl, ?_⟩
  show pyStrip ' ' c = "" ↔ _
  exact pyStrip_eq_empty_iff ' ' c

/-- C7: when `<venv_dir>/bin/python` already exists under `cwd`,
`PythonCreateVenvStep.execute` returns `success` with output
`venv exists. Skipping...` without invoking any shell command (the
boolean component is `false`), so re-running the venv-create step is a
no-op. -/
theorem venv_create_step_skips_when_venv_exists (s : PythonCreateVenvStep)
    (cwd : String) (fs : String → Bool) (res : ExecResult)
    (h : fs (joinPath cwd (joinPath s.venv_dir (joinPath "bin" "python"))) = true) :
    s.execute cwd fs res =
      ({ status := Status.success, output := "venv exists. Skipping..." }, false) := by
  unfold PythonCreateVenvStep.execute
  simp [h]

/-- C7 witness: a concrete filesystem in which the venv python exists
makes the step skip. -/
theorem venv_create_step_skips_when_venv_exists_witness :
    PythonCreateVenvStep.execute ⟨"d", "v", "python3"⟩ "/w"
      (fun p => p == "/w/v/bin/python") (ExecResult.ok "o") =
      ({ status := Status.success, output := "venv exists. Skipping..." }, false) :=
  venv_create_step_skips_when_venv_exists ⟨"d", "v", "python3"⟩ "/w"
    (fun p => p == "/w/v/bin/python") (ExecResult.ok "o") (by decide)

/-- C8: the first `get_command` of an `AptInstallStep` probes the dpkg
count and returns `sudo dpkg-reconfigure <pkgs>` when the count equals
the number of packages and `sudo apt-get install -y <pkgs>` otherwise;
the choice is cached, and any subsequent call returns the same command
without probing again (for any later probe value). -/
theorem apt_install_get_command_probes_once (pkgs : List String) (t count count2 : Nat) :
    ((AptInstallStep.init pkgs t).getCommand count).1 =
      (if count = pkgs.length
       then "sudo dpkg-reconfigure " ++ String.intercalate " " pkgs
       else "sudo apt-get install -y " ++ String.intercalate " " pkgs)
    ∧ ((AptInstallStep.init pkgs t).getCommand count).2.2 = true
    ∧ (((AptInstallStep.init pkgs t).getCommand count).2.1.getCommand count2) =
        (((AptInstallStep.init pkgs t).getCommand count).1,
         ((AptInstallStep.init pkgs t).getCommand count).2.1, false) := by
  have hne : ∀ x : String, "sudo dpkg-reconfigure " ++ x ≠ "" := fun x =>
    string_append_ne_empty _ x (by decide)
  have hne2 : ∀ x : String, "sudo apt-get install -y " ++ x ≠ "" := fun x =>
    string_append_ne_empty _ x (by decide)
  by_cases h : count = pkgs.length <;>
    simp [AptInstallStep.init, AptInstallStep.getCommand, AptInstallStep.resolveCommand,
      h, hne _, hne2 _]

/-- C9: `_load_plugins` deletes the `name` key from every plugin
dictionary of the configuration, so when a first load succeeds on a
non-empty plugin list, loading again from the mutated configuration
fails with `BadPluginConfig`. -/
theorem load_plugins_mutates_config (ds : List PDict) (ns : List String) (ds2 : List PDict)
    (h : loadPlugins ds = some (ns, ds2)) (hne : ds2 ≠ []) :
    loadPlugins ds2 = none := by
  cases ds with
  | nil =>
    simp [loadPlugins] at h
    exact absurd h.2 hne
  | cons d rest =>
    rw [loadPlugins] at h
    cases hl : lookupKey d "name" with
    | none => rw [hl] at h; simp at h
    | some n =>
      rw [hl] at h
      cases hr : loadPlugins rest with
      | none => rw [hr] at h; simp at h
      | some r =>
        rw [hr] at h
        simp only [Option.some_inj] at h
        have hds2 : ds2 = delKey d "name" :: r.2 := by
          have := congrArg Prod.snd h
          simpa using this.symm
        rw [hds2, loadPlugins, lookupKey_delKey_name d]

/-- C9 witness: a one-plugin configuration loads once, and reloading the
mutated configuration fails. -/
theorem load_plugins_mutates_config_witness :
    loadPlugins [[("pyversion", "py3")]] = none :=
  load_plugins_mutates_config [[("name", "python-venv"), ("pyversion", "py3")]]
    ["python-venv"] [[("pyversion", "py3")]] (by decide) (by decide)

/-- Aggregating into an initial `None` build status records the step status. -/
theorem updateBuildStatus_none (st : Status) : updateBuildStatus none st = some st := rfl

/-- Aggregating into a `success` build status records the step status. -/
theorem updateBuildStatus_success (st : Status) :
    updateBuildStatus (some Status.success) st = some st := rfl

/-- A non-`success` build status is never changed by aggregation. -/
theorem updateBuildStatus_other (x st : Status) (hx : x ≠ Status.success) :
    updateBuildStatus (some x) st = some x := by
  simp [updateBuildStatus, hx]

/-- A build over at least one step executes at least one step. -/
theorem doBuildLoop_cons_length_pos (thresh : Nat) (bs : Option Status)
    (s : StepSpec) (rest : List StepSpec) :
    1 ≤ (doBuildLoop thresh bs (s :: rest)).1.length := by
  rw [doBuildLoop]
  split
  · simp
  · split <;> simp

/-- Once the carried build status is set it never becomes `None`. -/
theorem doBuildLoop_some_isSome (thresh : Nat) (z : Status) (specs : List StepSpec) :
    (doBuildLoop thresh (some z) specs).2.isSome := by
  induction specs generalizing z with
  | nil => simp [doBuildLoop]
  | cons s rest ih =>
    rw [doBuildLoop]
    unfold updateBuildStatus
    by_cases hz : z = Status.success <;>
      simp only [hz] <;>
      split <;> try split
    all_goals simp_all [ih]

/-- Once the carried build status is a non-`success` value, the loop
keeps it unchanged to the end. -/
theorem doBuildLoop_latch (thresh : Nat) (x : Status) (hx : x ≠ Status.success)
    (specs : List StepSpec) :
    (doBuildLoop thresh (some x) specs).2 = some x := by
  induction specs with
  | nil => simp [doBuildLoop]
  | cons s rest ih =>
    rw [doBuildLoop]
    rw [updateBuildStatus_other _ _ hx]
    split
    · rfl
    · split
      · rfl
      · exact ih

/-- Starting the loop from `success` gives the same final status as
starting from `None`, except that an empty remainder keeps `success`. -/
theorem doBuildLoop_from_success (thresh : Nat) (specs : List StepSpec) :
    (doBuildLoop thresh (some Status.success) specs).2 =
      match (doBuildLoop thresh none specs).2 with
      | none => some Status.success
      | some y => some y := by
  cases specs with
  | nil => simp [doBuildLoop]
  | cons s rest =>
    rw [doBuildLoop, doBuildLoop, updateBuildStatus_success, updateBuildStatus_none]
    split
    · rfl
    · split
      · rfl
      · have hs := doBuildLoop_some_isSome thresh
          ((BuildStep.execute s.step s.res).status) rest
        cases ho : (doBuildLoop thresh
            (some (BuildStep.execute s.step s.res).status) rest).2 with
        | none => rw [ho] at hs; simp at hs
        | some y => simp [ho]

/-- The executed-steps list does not depend on the carried build
status: breaks are decided by step statuses alone. -/
theorem doBuildLoop_fst_independent (thresh : Nat) (specs : List StepSpec)
    (bs bs2 : Option Status) :
    (doBuildLoop thresh bs specs).1 = (doBuildLoop thresh bs2 specs).1 := by
  induction specs generalizing bs bs2 with
  | nil => rfl
  | cons s rest ih =>
    rw [doBuildLoop, doBuildLoop]
    by_cases h1 : (BuildStep.execute s.step s.res).status = Status.cancelled
    · simp [h1]
    · by_cases h2 : ((BuildStep.execute s.step s.res).status = Status.fail ∨
          (BuildStep.execute s.step s.res).status = Status.exception) ∧
          s.step.stop_on_fail = true
      · simp [h1, h2]
      · simp only [h1, h2, if_false]
        simp [ih (updateBuildStatus bs (BuildStep.execute s.step s.res).status)
          (updateBuildStatus bs2 (BuildStep.execute s.step s.res).status)]

/-- The final build status computed by the loop is the first
non-`success` status among the executed steps. -/
theorem doBuild_status_eq_firstNonSuccess (thresh : Nat) (specs : List StepSpec) :
    (doBuildLoop thresh none specs).2 =
      firstNonSuccess ((doBuildLoop thresh none specs).1.map (·.status)) := by
  induction specs with
  | nil => rfl
  | cons s rest ih =>
    rw [doBuildLoop, updateBuildStatus_none]
    by_cases h1 : (BuildStep.execute s.step s.res).status = Status.cancelled
    · simp [h1, firstNonSuccess]
    · by_cases h2 : ((BuildStep.execute s.step s.res).status = Status.fail ∨
          (BuildStep.execute s.step s.res).status = Status.exception) ∧
          s.step.stop_on_fail = true
      · have hne : (BuildStep.execute s.step s.res).status ≠ Status.success := by
          rcases h2.1 with h | h <;> rw [h] <;> decide
        simp [h1, h2, firstNonSuccess]
      · simp only [h1, h2, if_false]
        by_cases hsucc : (BuildStep.execute s.step s.res).status = Status.success
        · simp only [hsucc]
          show (doBuildLoop thresh (some Status.success) rest).2 = _
          rw [doBuildLoop_from_success]
          have hfst := doBuildLoop_fst_independent thresh rest (some Status.success) none
          simp only [List.map_cons]
          rw [show ((doBuildLoop thresh (some Status.success) rest).1.map (·.status)) =
            ((doBuildLoop thresh none rest).1.map (·.status)) from by rw [hfst]]
          cases ho : (doBuildLoop thresh none rest).2 with
          | none =>
            rw [ho] at ih
            simp [firstNonSuccess, ← ih]
          | some y =>
            rw [ho] at ih
            simp [firstNonSuccess, ← ih]
        · show (doBuildLoop thresh
            (some (BuildStep.execute s.step s.res).status) rest).2 = _
          rw [doBuildLoop_latch thresh _ hsucc rest]
          simp only [List.map_cons]
          cases ho : firstNonSuccess
              ((doBuildLoop thresh
                (some (BuildStep.execute s.step s.res).status) rest).1.map (·.status)) <;>
            simp [firstNonSuccess, ho, hsucc]

/-- A flush emits index 0 on the first flush of a step and the
successor of the previous index afterwards. -/
theorem flushStepOutputBuff_idx (b : OutBuf) :
    (flushStepOutputBuff b).2.1 = nextIdx b.idx := by
  obtain ⟨buff, len, idx⟩ := b
  cases idx <;> rfl

/-- Streaming lines through the buffer emits messages indexed
consecutively from the next index of the starting state. -/
theorem runLines_indices (thresh : Nat) (ls : List String) (b : OutBuf) :
    ((runLines thresh b ls).2.map Prod.fst =
      List.range' (nextIdx b.idx) (runLines thresh b ls).2.length)
    ∧ nextIdx (runLines thresh b ls).1.idx = nextIdx b.idx + (runLines thresh b ls).2.length := by
  induction ls generalizing b with
  | nil => simp [runLines]
  | cons l ls ih =>
    rw [runLines]
    by_cases h : b.bufLen + l.length > thresh
    · have hsend : sendStepOutputInfo thresh b l =
          (⟨[], 0, some (nextIdx b.idx)⟩,
           [(nextIdx b.idx,
             pyStrip '\n' (String.join (b.buff ++ [l])))]) := by
        unfold sendStepOutputInfo flushStepOutputBuff
        cases hb : b.idx <;> simp [h, hb, nextIdx]
      rw [hsend]
      have ihb := ih ⟨[], 0, some (nextIdx b.idx)⟩
      rw [show nextIdx (OutBuf.mk [] 0 (some (nextIdx b.idx))).idx =
        nextIdx b.idx + 1 from rfl] at ihb
      dsimp only
      simp only [List.cons_append, List.nil_append, List.map_cons, List.length_cons]
      constructor
      · rw [List.range'_succ]
        exact List.cons_eq_cons.mpr ⟨rfl, ihb.1⟩
      · rw [ihb.2]
        omega
    · have hsend : sendStepOutputInfo thresh b l =
          (⟨b.buff ++ [l], b.bufLen + l.length, b.idx⟩, []) := by
        unfold sendStepOutputInfo
        simp [h]
      rw [hsend]
      have ihb := ih ⟨b.buff ++ [l], b.bufLen + l.length, b.idx⟩
      simpa using ihb

/-- The `output_index` values of one step's messages are exactly
`0, 1, 2, ...` in emission order. -/
theorem stepOutputs_indices (thresh : Nat) (lines : List String) :
    (stepOutputs thresh lines).map Prod.fst = List.range (stepOutputs thresh lines).length := by
  unfold stepOutputs
  have h := runLines_indices thresh lines clearStepOutputBuff
  have hclear : nextIdx clearStepOutputBuff.idx = 0 := rfl
  rw [hclear] at h
  simp only [List.map_append, List.length_append, List.map_cons, List.map_nil,
    List.length_cons, List.length_nil]
  rw [h.1, flushStepOutputBuff_idx, h.2]
  have h1 : List.range ((runLines thresh clearStepOutputBuff lines).2.length + (0 + 1)) =
      List.range ((runLines thresh clearStepOutputBuff lines).2.length) ++
        [(runLines thresh clearStepOutputBuff lines).2.length] := by
    simpa using List.range_succ ((runLines thresh clearStepOutputBuff lines).2.length)
  rw [h1, List.range_eq_range']
  simp

/-- Every executed step's messages are the buffered emission of some
input step's lines. -/
theorem mem_doBuildLoop_outputs (thresh : Nat) (bs : Option Status)
    (specs : List StepSpec) (ex : ExecutedStep)
    (hmem : ex ∈ (doBuildLoop thresh bs specs).1) :
    ∃ s ∈ specs, ex.outputs = stepOutputs thresh s.lines := by
  induction specs generalizing bs with
  | nil => simp [doBuildLoop] at hmem
  | cons s rest ih =>
    rw [doBuildLoop] at hmem
    by_cases h1 : (BuildStep.execute s.step s.res).status = Status.cancelled
    · simp [h1] at hmem
      exact ⟨s, by simp, by rw [hmem]⟩
    · by_cases h2 : ((BuildStep.execute s.step s.res).status = Status.fail ∨
          (BuildStep.execute s.step s.res).status = Status.exception) ∧
          s.step.stop_on_fail = true
      · simp [h1, h2] at hmem
        exact ⟨s, by simp, by rw [hmem]⟩
      · simp only [h1, h2, if_false] at hmem
        rcases List.mem_cons.mp hmem with h | h
        · exact ⟨s, by simp, by rw [h]⟩
        · obtain ⟨s2, hs2, hout⟩ := ih _ h
          exact ⟨s2, by simp [hs2], hout⟩

/-- C4: for every step the build executes, the `step_output_info`
messages of that step carry `output_index` values forming a dense
prefix of the naturals starting at 0, in emission order — the counter
is reset by the clear at the start of each step — hence the indices
are strictly increasing within a step. -/
theorem step_output_indices_dense (thresh : Nat) (specs : List StepSpec)
    (ex : ExecutedStep) (hmem : ex ∈ (doBuild thresh specs).1) :
    ex.outputs.map Prod.fst = List.range ex.outputs.length := by
  obtain ⟨s, _, hout⟩ := mem_doBuildLoop_outputs thresh none specs ex hmem
  rw [hout]
  exact stepOutputs_indices thresh s.lines

/-- C4 witness: a concrete one-step build whose step emits output. -/
theorem step_output_indices_dense_witness :
    (⟨BuildStep.init "s" "echo hi" false 3600 false, Status.success,
        stepOutputs 0 ["hi\n"]⟩ : ExecutedStep) ∈
      (doBuild 0 [⟨BuildStep.init "s" "echo hi" false 3600 false,
        ExecResult.ok "hi", ["hi\n"]⟩]).1
    ∧ (stepOutputs 0 ["hi\n"]).map Prod.fst = List.range (stepOutputs 0 ["hi\n"]).length :=
  ⟨by decide,
   step_output_indices_dense 0
     [⟨BuildStep.init "s" "echo hi" false 3600 false, ExecResult.ok "hi", ["hi\n"]⟩]
     ⟨BuildStep.init "s" "echo hi" false 3600 false, Status.success, stepOutputs 0 ["hi\n"]⟩
     (by decide)⟩

/-- C10: every executed step emits at least one `step_output_info`
message, because the post-step flush is unconditional; a step with no
output lines yields exactly one message with `output_index` 0 and empty
output. -/
theorem step_output_always_flushed (thresh : Nat) (specs : List StepSpec)
    (ex : ExecutedStep) (hmem : ex ∈ (doBuild thresh specs).1) :
    ex.outputs ≠ [] ∧ stepOutputs thresh [] = [(0, "")] := by
  constructor
  · obtain ⟨s, _, hout⟩ := mem_doBuildLoop_outputs thresh none specs ex hmem
    rw [hout]
    unfold stepOutputs
    simp
  · rfl

/-- C10 witness: a concrete build whose step produces no lines. -/
theorem step_output_always_flushed_witness :
    (⟨BuildStep.init "s" "true" false 3600 false, Status.success,
        stepOutputs 0 []⟩ : ExecutedStep).outputs ≠ []
    ∧ stepOutputs 0 [] = [(0, "")] :=
  step_output_always_flushed 0
    [⟨BuildStep.init "s" "true" false 3600 false, ExecResult.ok "", []⟩]
    ⟨BuildStep.init "s" "true" false 3600 false, Status.success, stepOutputs 0 []⟩
    (by decide)

/-- C3: a step with terminal status `cancelled` skips all remaining
steps regardless of `stop_on_fail`; a `fail` or `exception` step with
`stop_on_fail` skips all remaining steps; and a step with
`stop_on_fail = false` whose status is not `cancelled` never
short-circuits — the next step is started. -/
theorem build_loop_short_circuit (thresh : Nat) (bs : Option Status)
    (s : StepSpec) (rest : List StepSpec) :
    ((BuildStep.execute s.step s.res).status = Status.cancelled →
      (doBuildLoop thresh bs (s :: rest)).1.length = 1)
    ∧ (((BuildStep.execute s.step s.res).status = Status.fail ∨
        (BuildStep.execute s.step s.res).status = Status.exception) →
       s.step.stop_on_fail = true →
       (doBuildLoop thresh bs (s :: rest)).1.length = 1)
    ∧ (s.step.stop_on_fail = false →
       (BuildStep.execute s.step s.res).status ≠ Status.cancelled →
       rest ≠ [] →
       2 ≤ (doBuildLoop thresh bs (s :: rest)).1.length) := by
  refine ⟨?_, ?_, ?_⟩
  · intro h
    rw [doBuildLoop]
    simp [h]
  · intro h hsf
    have hnc : (BuildStep.execute s.step s.res).status ≠ Status.cancelled := by
      rcases h with h | h <;> rw [h] <;> decide
    rw [doBuildLoop]
    simp [hnc, h, hsf]
  · intro hsf hnc hrest
    rw [doBuildLoop]
    simp [hnc, hsf]
    obtain ⟨r, rest2, hr⟩ : ∃ r rest2, rest = r :: rest2 := by
      cases rest with
      | nil => exact absurd rfl hrest
      | cons a b => exact ⟨a, b, rfl⟩
    rw [hr]
    have := doBuildLoop_cons_length_pos thresh
      (updateBuildStatus bs (BuildStep.execute s.step s.res).status) r rest2
    omega

/-- C1 counterexample: a build whose steps end `warning` then `fail`
(first step has `warning_on_fail` and its command fails, second step
fails) finishes with build status `warning`, while the worst executed
status under the claimed ordering is `fail` — the final status is not
the worst status seen. -/
theorem build_status_not_worst_counterexample :
    (doBuild 0
      [⟨BuildStep.init "a" "cmd-a" true 3600 false, ExecResult.execError "boom", []⟩,
       ⟨BuildStep.init "b" "cmd-b" false 3600 false, ExecResult.execError "x", []⟩]).2 =
        some Status.warning
    ∧ worstStatus ((doBuild 0
        [⟨BuildStep.init "a" "cmd-a" true 3600 false, ExecResult.execError "boom", []⟩,
         ⟨BuildStep.init "b" "cmd-b" false 3600 false, ExecResult.execError "x", []⟩]).1.map
          (·.status)) = some Status.fail := by
  constructor <;> decide

/-- C1 amended: the final build status is the first non-`success`
status among the terminal statuses of the executed steps (`success`
when all succeed, `None` for an empty build), and once the running
build status is non-`success` it never changes — in particular it never
improves. -/
theorem build_status_is_first_non_success (thresh : Nat) (specs : List StepSpec) :
    ((doBuild thresh specs).2 =
      firstNonSuccess ((doBuild thresh specs).1.map (·.status)))
    ∧ (∀ x : Status, x ≠ Status.success →
        (doBuildLoop thresh (some x) specs).2 = some x) :=
  ⟨doBuild_status_eq_firstNonSuccess thresh specs,
   fun x hx => doBuildLoop_latch thresh x hx specs⟩

/-- C1 witness: a latched `fail` status survives a succeeding step. -/
theorem build_status_is_first_non_success_witness :
    (doBuildLoop 0 (some Status.fail)
      [⟨BuildStep.init "s" "echo hi" false 3600 false, ExecResult.ok "hi", []⟩]).2 =
      some Status.fail :=
  (build_status_is_first_non_success 0
    [⟨BuildStep.init "s" "echo hi" false 3600 false, ExecResult.ok "hi", []⟩]).2
    Status.fail (by decide)

/-- C3 witness: concrete two-step builds for the cancelled break, the
`stop_on_fail` break, and the no-break continuation. -/
theorem build_loop_short_circuit_witness :
    (doBuildLoop 0 none
      [⟨BuildStep.init "c" "x" false 3600 false, ExecResult.cancelled, []⟩,
       ⟨BuildStep.init "o" "y" false 3600 false, ExecResult.ok "out", []⟩]).1.length = 1
    ∧ (doBuildLoop 0 none
      [⟨BuildStep.init "f" "x" false 3600 true, ExecResult.execError "e", []⟩,
       ⟨BuildStep.init "o" "y" false 3600 false, ExecResult.ok "out", []⟩]).1.length = 1
    ∧ 2 ≤ (doBuildLoop 0 none
      [⟨BuildStep.init "f" "x" false 3600 false, ExecResult.execError "e", []⟩,
       ⟨BuildStep.init "o" "y" false 3600 false, ExecResult.ok "out", []⟩]).1.length :=
  ⟨(build_loop_short_circuit 0 none
      ⟨BuildStep.init "c" "x" false 3600 false, ExecResult.cancelled, []⟩
      [⟨BuildStep.init "o" "y" false 3600 false, ExecResult.ok "out", []⟩]).1
      (by decide),
   (build_loop_short_circuit 0 none
      ⟨BuildStep.init "f" "x" false 3600 true, ExecResult.execError "e", []⟩
      [⟨BuildStep.init "o" "y" false 3600 false, ExecResult.ok "out", []⟩]).2.1
      (by decide) (by decide),
   (build_loop_short_circuit 0 none
      ⟨BuildStep.init "f" "x" false 3600 false, ExecResult.execError "e", []⟩
      [⟨BuildStep.init "o" "y" false 3600 false, ExecResult.ok "out", []⟩]).2.2
      (by decide) (by decide) (by decide)⟩

/-- Joining only empty lines by newline yields a string of newlines. -/
theorem joinNL_data_all_empty (pre : List String) (h : ∀ x ∈ pre, x = "") :
    ∀ ch ∈ (joinNL pre).data, ch = '\n' := by
  induction pre with
  | nil => simp [joinNL]
  | cons x pre' ih =>
    have hx : x = "" := h x (by simp)
    cases pre' with
    | nil => simp [joinNL, hx]
    | cons y pre2 =>
      rw [joinNL, hx]
      · intro ch hch
        simp only [String.data_append] at hch
        rcases List.mem_append.mp hch with h1 | h2
        · rcases List.mem_append.mp h1 with h3 | h4
          · simp at h3
          · simpa using h4
        · exact ih (fun z hz => h z (by simp [hz])) ch h2
      · simp

/-- Joining empty lines followed by a final line by newline yields
newlines followed by that line. -/
theorem joinNL_data_empties_concat (pre : List String) (l : String)
    (h : ∀ x ∈ pre, x = "") :
    (joinNL (pre ++ [l])).data = List.replicate pre.length '\n' ++ l.data := by
  induction pre with
  | nil => simp [joinNL]
  | cons x pre' ih =>
    have hx : x = "" := h x (by simp)
    cases pre' with
    | nil => simp [joinNL, hx, String.data_append]
    | cons y pre2 =>
      rw [List.cons_append, joinNL, hx]
      · have hih := ih (fun z hz => h z (by simp [hz]))
        simp only [String.data_append]
        rw [hih]
        simp [List.replicate_succ]
      · simp

/-- The character lists of empty strings are all empty. -/
theorem map_data_all_empty (pre : List String) (h : ∀ x ∈ pre, x = "") :
    pre.map String.data = List.replicate pre.length [] := by
  induction pre with
  | nil => rfl
  | cons x xs ih =>
    have hx : x = "" := h x (by simp)
    have he : ("" : String).data = [] := rfl
    simp [hx, he, List.replicate_succ, ih (fun z hz => h z (by simp [hz]))]

/-- Stripping newlines ignores a leading run of newlines. -/
theorem pyStrip_replicate_newline (k : Nat) (l : List Char) :
    pyStrip '\n' (String.mk (List.replicate k '\n' ++ l)) = pyStrip '\n' (String.mk l) := by
  unfold pyStrip
  have hdrop : (List.replicate k '\n' ++ l).dropWhile (· = '\n') = l.dropWhile (· = '\n') := by
    induction k with
    | zero => simp
    | succ k ih => simp [List.replicate_succ, List.dropWhile, ih]
  show String.mk ((((String.mk (List.replicate k '\n' ++ l)).data.dropWhile (· = '\n')).reverse.dropWhile (· = '\n')).reverse) = _
  rw [show (String.mk (List.replicate k '\n' ++ l)).data = List.replicate k '\n' ++ l from rfl]
  rw [hdrop]

/-- Concatenating empty lines followed by a final line yields that
line. -/
theorem string_join_all_empty_concat (pre : List String) (l : String)
    (h : ∀ x ∈ pre, x = "") : String.join (pre ++ [l]) = l := by
  apply String.ext
  rw [String.data_join]
  have := map_data_all_empty pre h
  simp [this]

/-- Concatenating only empty lines yields the empty string. -/
theorem string_join_all_empty (pre : List String) (h : ∀ x ∈ pre, x = "") :
    String.join pre = "" := by
  apply String.ext
  rw [String.data_join]
  have := map_data_all_empty pre h
  simp [this]

/-- On a buffer of empty lines followed by one final line — the only
buffer shapes reachable with threshold 0 — the code's flush
(concatenate, then strip newlines) and the spec's flush (join by
newline, then strip newlines) emit the same message. -/
theorem flushNL_eq_flush_concat (b : OutBuf) (pre : List String) (l : String)
    (hb : b.buff = pre ++ [l]) (h : ∀ x ∈ pre, x = "") :
    flushStepOutputBuffNL b = flushStepOutputBuff b := by
  unfold flushStepOutputBuffNL flushStepOutputBuff
  rw [hb]
  have h1 : pyStrip '\n' (joinNL (pre ++ [l])) = pyStrip '\n' l := by
    have hd := joinNL_data_empties_concat pre l h
    have : joinNL (pre ++ [l]) = String.mk (List.replicate pre.length '\n' ++ l.data) :=
      String.ext hd
    rw [this, pyStrip_replicate_newline]
  have h2 : pyStrip '\n' (String.join (pre ++ [l])) = pyStrip '\n' l := by
    rw [string_join_all_empty_concat pre l h]
  rw [h1, h2]

/-- On a buffer of only empty lines the two flushes also agree. -/
theorem flushNL_eq_flush_empty (b : OutBuf) (h : ∀ x ∈ b.buff, x = "") :
    flushStepOutputBuffNL b = flushStepOutputBuff b := by
  unfold flushStepOutputBuffNL flushStepOutputBuff
  have h1 : pyStrip '\n' (joinNL b.buff) = "" :=
    (pyStrip_eq_empty_iff '\n' (joinNL b.buff)).mpr (joinNL_data_all_empty b.buff h)
  have h2 : pyStrip '\n' (String.join b.buff) = "" := by
    rw [string_join_all_empty b.buff h]
    rfl
  rw [h1, h2]

/-- With the builder's threshold 0, streaming with the spec's flush
emits exactly the messages of the code's flush, and the buffer only
ever holds empty lines between sends. -/
theorem runLinesNL_eq_runLines (ls : List String) (b : OutBuf)
    (h1 : ∀ x ∈ b.buff, x = "") (h2 : b.bufLen = 0) :
    runLinesNL 0 b ls = runLines 0 b ls
    ∧ (∀ x ∈ (runLines 0 b ls).1.buff, x = "")
    ∧ (runLines 0 b ls).1.bufLen = 0 := by
  induction ls generalizing b with
  | nil => exact ⟨rfl, h1, h2⟩
  | cons l ls ih =>
    rw [runLinesNL, runLines]
    by_cases hl : l.length = 0
    · have hl0 : l = "" := by
        apply String.ext
        have := congrArg List.length (rfl : l.data = l.data)
        have hld : l.data.length = 0 := hl
        exact List.length_eq_zero.mp hld
      have hsend : sendStepOutputInfo 0 b l =
          (⟨b.buff ++ [l], b.bufLen + l.length, b.idx⟩, []) := by
        unfold sendStepOutputInfo
        simp [h2, hl]
      have hsendNL : sendStepOutputInfoNL 0 b l =
          (⟨b.buff ++ [l], b.bufLen + l.length, b.idx⟩, []) := by
        unfold sendStepOutputInfoNL
        simp [h2, hl]
      rw [hsend, hsendNL]
      have hinv1 : ∀ x ∈ (OutBuf.mk (b.buff ++ [l]) (b.bufLen + l.length) b.idx).buff, x = "" := by
        intro x hx
        rcases List.mem_append.mp hx with h | h
        · exact h1 x h
        · simp at h
          rw [h, hl0]
      have hinv2 : (OutBuf.mk (b.buff ++ [l]) (b.bufLen + l.length) b.idx).bufLen = 0 := by
        simp [h2, hl]
      obtain ⟨e1, e2, e3⟩ := ih _ hinv1 hinv2
      rw [e1]
      exact ⟨rfl, e2, e3⟩
    · have hgt : b.bufLen + l.length > 0 := by omega
      have hsend : sendStepOutputInfo 0 b l =
          ((flushStepOutputBuff ⟨b.buff ++ [l], b.bufLen + l.length, b.idx⟩).1,
           [(flushStepOutputBuff ⟨b.buff ++ [l], b.bufLen + l.length, b.idx⟩).2]) := by
        unfold sendStepOutputInfo
        simp [hgt]
      have hsendNL : sendStepOutputInfoNL 0 b l =
          ((flushStepOutputBuffNL ⟨b.buff ++ [l], b.bufLen + l.length, b.idx⟩).1,
           [(flushStepOutputBuffNL ⟨b.buff ++ [l], b.bufLen + l.length, b.idx⟩).2]) := by
        unfold sendStepOutputInfoNL
        simp [hgt]
      have hfl : flushStepOutputBuffNL ⟨b.buff ++ [l], b.bufLen + l.length, b.idx⟩ =
          flushStepOutputBuff ⟨b.buff ++ [l], b.bufLen + l.length, b.idx⟩ :=
        flushNL_eq_flush_concat _ b.buff l rfl h1
      rw [hsend, hsendNL, hfl]
      have hfst : (flushStepOutputBuff ⟨b.buff ++ [l], b.bufLen + l.length, b.idx⟩).1 =
          ⟨[], 0, some (nextIdx b.idx)⟩ := by
        unfold flushStepOutputBuff
        obtain ⟨buff, len, idx⟩ := b
        cases idx <;> rfl
      rw [hfst]
      obtain ⟨e1, e2, e3⟩ := ih ⟨[], 0, some (nextIdx b.idx)⟩ (by simp) rfl
      rw [e1]
      exact ⟨rfl, e2, e3⟩

/-- C5: with the builder's `STEP_OUTPUT_BUFF_LEN = 0`, every
`step_output_info` message emitted for a step has an output equal to
the buffered lines joined by newline with leading and trailing `\n`
stripped — the code's `''.join(...).strip('\n')` coincides with the
spec's newline-join reading on every reachable buffer. -/
theorem step_output_message_is_stripped_join (lines : List String) :
    stepOutputs 0 lines = stepOutputsNL 0 lines := by
  unfold stepOutputs stepOutputsNL
  obtain ⟨e1, e2, e3⟩ := runLinesNL_eq_runLines lines clearStepOutputBuff
    (by simp [clearStepOutputBuff]) rfl
  rw [e1]
  dsimp only
  rw [flushNL_eq_flush_empty _ e2]
